import Mathlib

/-!
Verification of the synchronization core of `glthreadsint.c` (a GLX thread
safety stress test).  Each definition below is a shallow embedding of a
function or code path of `src/glxdemos/glthreadsint.c`; line numbers in the
doc comments refer to that file.  X11/GL calls are modelled as explicit
effects; shared-memory concurrency is modelled as an interleaving of atomic
steps of the dispatcher (main) thread and the render threads.
-/

namespace GLThreads

/-! ## Key handler effect traces (`keypress`, lines 330-377) -/

/-- Effects a `keypress` invocation can perform.  `drawCall` and
`swapBuffers` are included so that "returns without drawing" is a
meaningful statement about the trace: the handler never emits them. -/
inductive KEff : Type
  | lockCondMutex
  | broadcastCondVar
  | unlockCondMutex
  | setExitFlag
  | unlockReady (i : ℕ)
  | setMakeNewTexture
  | drawCall
  | swapBuffers
  deriving DecidableEq, Repr

/-- `signal_redraw` (lines 126-132): broadcast the global condition
variable under its mutex. -/
def signal_redraw : List KEff :=
  [KEff.lockCondMutex, KEff.broadcastCondVar, KEff.unlockCondMutex]

/-- Key symbols dispatched by `keypress` (lines 340-376).  `keyA` is
listed because, with the `#if 0` block removed, `XK_a` falls through to
the `XK_s` case. -/
inductive Key : Type
  | escape
  | keyT
  | keyA
  | keyS
  | other
  deriving DecidableEq

/-- `keypress` (lines 330-377) as an effect trace.  `animate` is the
global `Animate` flag, `texture` the global `Texture` flag,
`numWinThreads` the global `NumWinThreads`. -/
def keypress (animate texture : Bool) (numWinThreads : ℕ) : Key → List KEff
  | Key.escape =>
      (if animate then [] else signal_redraw)
        ++ [KEff.setExitFlag]
        ++ (List.range numWinThreads).map KEff.unlockReady
  | Key.keyT =>
      if texture then
        KEff.setMakeNewTexture :: (if animate then [] else signal_redraw)
      else []
  | Key.keyA => if animate then [] else signal_redraw
  | Key.keyS => if animate then [] else signal_redraw
  | Key.other => []

/-! ## Interleaved concurrency model for `draw_loop` and the dispatcher

`draw_loop` (lines 261-327) runs in each render thread.  Its program
counter positions are:

* `loopHead`   – about to test `while (!ExitFlag)` (line 264)
* `waitGate`   – blocked in `pthread_mutex_lock(&wt->Ready)` (line 266);
  the `Ready` mutex is used as a binary gate: it is locked by the main
  thread at creation (lines 625-627) and unlocked by the dispatcher
* `gateHeld`   – about to test `if (ExitFlag) break` (line 267)
* `rendering`  – executing the body up to the drawing calls (lines 269-309)
* `presenting` – about to call `glXSwapBuffers` (line 313)
* `resting`    – at the end of the iteration (lines 317-325)
* `waitCond`   – blocked in `pthread_cond_wait(&CondVar, ...)` (line 323)
* `finished`   – returned from `draw_loop`
-/
inductive PC : Type
  | loopHead
  | waitGate
  | gateHeld
  | rendering
  | presenting
  | resting
  | waitCond
  | finished
  deriving DecidableEq, Repr

/-- Atomic shared-state actions the dispatcher thread performs:
`ExitFlag = GL_TRUE` (line 346), `pthread_mutex_unlock(&wt->Ready)`,
and the `pthread_cond_broadcast` inside `signal_redraw`. -/
inductive DAct (n : ℕ) : Type
  | setExit
  | unlockGate (i : Fin n)
  | broadcast
  deriving DecidableEq, Repr

/-- Observations emitted by a step of the interleaved system. -/
inductive Ob (n : ℕ) : Type
  | silent
  | dAct (a : DAct n)
  | acquire (i : Fin n)
  | draw (i : Fin n)
  | present (i : Fin n)
  deriving DecidableEq, Repr

/-- Scheduler choice: run the dispatcher thread or render thread `i`. -/
inductive Sched (n : ℕ) : Type
  | disp
  | th (i : Fin n)
  deriving DecidableEq, Repr

/-- Shared state: the `ExitFlag` global (line 85), each unit's `Ready`
gate (`true` = unlocked), each render thread's program counter, and the
queue of atomic actions the dispatcher still has to perform. -/
structure Sys (n : ℕ) : Type where
  exitFlag : Bool
  gates : Fin n → Bool
  pcs : Fin n → PC
  queue : List (DAct n)

/-- Apply one dispatcher action to the shared state. -/
def applyDAct {n : ℕ} (s : Sys n) : DAct n → Sys n
  | DAct.setExit => { s with exitFlag := true }
  | DAct.unlockGate i =>
      { s with gates := fun j => if j = i then true else s.gates j }
  | DAct.broadcast =>
      { s with pcs := fun j => if s.pcs j = PC.waitCond then PC.loopHead else s.pcs j }

/-- One step of the dispatcher thread: perform the next queued action. -/
def dispStep {n : ℕ} (s : Sys n) : Sys n × Ob n :=
  match s.queue with
  | [] => (s, Ob.silent)
  | a :: rest => (applyDAct { s with queue := rest } a, Ob.dAct a)

/-- Overwrite thread `i`'s program counter. -/
def setPc {n : ℕ} (s : Sys n) (i : Fin n) (p : PC) : Sys n :=
  { s with pcs := fun j => if j = i then p else s.pcs j }

/-- One step of render thread `i`, following `draw_loop` (lines 261-327).
A blocked thread (closed gate, or waiting on the condition variable) has
a stutter step.  Waking from `pthread_cond_wait` is modelled by the
dispatcher's `broadcast` action moving `waitCond` threads to `loopHead`. -/
def thStep {n : ℕ} (animate : Bool) (s : Sys n) (i : Fin n) : Sys n × Ob n :=
  match s.pcs i with
  | PC.loopHead =>
      (setPc s i (if s.exitFlag then PC.finished else PC.waitGate), Ob.silent)
  | PC.waitGate =>
      if s.gates i then
        ({ setPc s i PC.gateHeld with
             gates := fun j => if j = i then false else s.gates j },
         Ob.acquire i)
      else (s, Ob.silent)
  | PC.gateHeld =>
      (setPc s i (if s.exitFlag then PC.finished else PC.rendering), Ob.silent)
  | PC.rendering => (setPc s i PC.presenting, Ob.draw i)
  | PC.presenting => (setPc s i PC.resting, Ob.present i)
  | PC.resting =>
      (setPc s i (if animate then PC.loopHead else PC.waitCond), Ob.silent)
  | PC.waitCond => (s, Ob.silent)
  | PC.finished => (s, Ob.silent)

/-- One step of the interleaved system under a scheduler choice. -/
def sysStep {n : ℕ} (animate : Bool) (s : Sys n) : Sched n → Sys n × Ob n
  | Sched.disp => dispStep s
  | Sched.th i => thStep animate s i

/-- Run the system under a schedule, collecting the observation trace. -/
def run {n : ℕ} (animate : Bool) : Sys n → List (Sched n) → List (Ob n)
  | _, [] => []
  | s, c :: cs => (sysStep animate s c).2 :: run animate (sysStep animate s c).1 cs

/-- State reached after the first `k` scheduled steps. -/
def stAt {n : ℕ} (animate : Bool) (s : Sys n) (sched : List (Sched n)) (k : ℕ) : Sys n :=
  (sched.take k).foldl (fun st c => (sysStep animate st c).1) s

/-- Initial state: `ExitFlag` false (line 85), every gate locked by
`create_window` (lines 625-627), every render thread at the top of
`draw_loop`, and a given dispatcher work queue. -/
def initSys (n : ℕ) (q : List (DAct n)) : Sys n :=
  { exitFlag := false, gates := fun _ => false, pcs := fun _ => PC.loopHead, queue := q }

/-! ## Events and their compilation to dispatcher actions

`event_loop` (lines 384-488) dispatches each X event to a handler; the
handlers' shared-state effects (in program order) are listed by
`compileEvent`.  Field mutations that only one claim needs (sizes,
angles) are modelled separately with `event_loop_configure` below. -/

/-- X events routed to a unit, as seen by `event_loop`. -/
inductive XEv (n : ℕ) : Type
  | configure (i : Fin n)
  | motion (i : Fin n)
  | buttonPress (i : Fin n)
  | buttonRelease (i : Fin n)
  | expose (i : Fin n)
  | keyEscape
  | keyT
  | keyS
  | otherEvent
  deriving DecidableEq, Repr

/-- Shared-state actions performed by `event_loop`'s handler for one
event, in program order (lines 407-486 together with `resize`,
lines 247-255, and `keypress`, lines 330-377). -/
def compileEvent {n : ℕ} (animate texture : Bool) : XEv n → List (DAct n)
  | XEv.configure i =>
      (if animate then [] else [DAct.broadcast]) ++ [DAct.unlockGate i]
  | XEv.motion i => [DAct.unlockGate i]
  | XEv.buttonPress _ => []
  | XEv.buttonRelease i => [DAct.unlockGate i]
  | XEv.expose i => [DAct.unlockGate i]
  | XEv.keyEscape =>
      (if animate then [] else [DAct.broadcast])
        ++ [DAct.setExit]
        ++ (List.finRange n).map DAct.unlockGate
  | XEv.keyT => if texture && !animate then [DAct.broadcast] else []
  | XEv.keyS => if animate then [] else [DAct.broadcast]
  | XEv.otherEvent => []

/-- Dispatcher work queue produced by a sequence of events. -/
def compileEvents {n : ℕ} (animate texture : Bool) (evs : List (XEv n)) : List (DAct n) :=
  evs.flatMap (compileEvent animate texture)

/-- Events whose handler unlocks unit `i`'s gate (`ConfigureNotify`,
`MotionNotify`, `ButtonRelease`, `Expose` for `i`'s window, and the
escape key, which unlocks every gate). -/
def releasingFor {n : ℕ} (i : Fin n) : XEv n → Bool
  | XEv.configure j => decide (j = i)
  | XEv.motion j => decide (j = i)
  | XEv.buttonRelease j => decide (j = i)
  | XEv.expose j => decide (j = i)
  | XEv.keyEscape => true
  | _ => false

/-- Key events and pointer (motion/button) events. -/
def isKeyOrPointerEv {n : ℕ} : XEv n → Bool
  | XEv.motion _ => true
  | XEv.buttonPress _ => true
  | XEv.buttonRelease _ => true
  | XEv.keyEscape => true
  | XEv.keyT => true
  | XEv.keyS => true
  | _ => false

/-! ### Trace counters and potentials -/

/-- Number of presents (`glXSwapBuffers`, line 313) by unit `i` in a trace. -/
def presCnt {n : ℕ} (i : Fin n) (t : List (Ob n)) : ℕ :=
  t.countP (fun o => decide (o = Ob.present i))

/-- Number of gate acquisitions (returns of `pthread_mutex_lock(&wt->Ready)`,
line 266) by unit `i` in a trace. -/
def acqCnt {n : ℕ} (i : Fin n) (t : List (Ob n)) : ℕ :=
  t.countP (fun o => decide (o = Ob.acquire i))

/-- Number of gate releases (`pthread_mutex_unlock(&wt->Ready)`) for unit
`i` performed by the dispatcher in a trace. -/
def relCnt {n : ℕ} (i : Fin n) (t : List (Ob n)) : ℕ :=
  t.countP (fun o => decide (o = Ob.dAct (DAct.unlockGate i)))

/-- 1 when thread `i` is inside the loop body (past its gate acquisition,
not yet past its present). -/
def bodyBit {n : ℕ} (i : Fin n) (s : Sys n) : ℕ :=
  if s.pcs i = PC.gateHeld ∨ s.pcs i = PC.rendering ∨ s.pcs i = PC.presenting then 1 else 0

/-- 1 when unit `i`'s gate is currently unlocked. -/
def gateBit {n : ℕ} (i : Fin n) (s : Sys n) : ℕ :=
  if s.gates i then 1 else 0

/-- Number of still-queued `unlockGate i` dispatcher actions. -/
def queueRel {n : ℕ} (i : Fin n) (s : Sys n) : ℕ :=
  s.queue.countP (fun d => decide (d = DAct.unlockGate i))

/-- Invariant describing render thread `i` once it has woken from its
gate during shutdown: the exit flag is set and the thread is at the
`if (ExitFlag) break` test or already finished. -/
def shutdownInv {n : ℕ} (i : Fin n) (s : Sys n) : Prop :=
  s.exitFlag = true ∧ (s.pcs i = PC.gateHeld ∨ s.pcs i = PC.finished)

/-- Concrete single-unit schedule: thread reaches its gate, the
dispatcher handles an `Expose` event, the thread completes one redraw
cycle. -/
def exposeOnlySched : List (Sched 1) :=
  [Sched.th 0, Sched.disp, Sched.th 0, Sched.th 0, Sched.th 0, Sched.th 0]

/-- Concrete single-unit schedule: one redraw cycle driven by an
`Expose` event, then the thread blocks on the condition variable, the
dispatcher handles a step-key press (broadcast), and the woken thread
blocks on its gate. -/
def exposeStepSched : List (Sched 1) :=
  [Sched.th 0, Sched.disp, Sched.th 0, Sched.th 0, Sched.th 0, Sched.th 0,
   Sched.th 0, Sched.disp, Sched.th 0, Sched.th 0, Sched.th 0]

/-- Concrete single-unit schedule: thread reaches its gate, the
dispatcher handles the escape key (set flag, then unlock), the thread
wakes and finishes. -/
def escapeSched : List (Sched 1) :=
  [Sched.th 0, Sched.disp, Sched.disp, Sched.th 0, Sched.th 0]

/-! ## Shutdown sequence (`clean_up`, lines 646-660, and `main`, lines 798-809) -/

/-- Resource actions performed during shutdown. -/
inductive SAct : Type
  | join (i : ℕ)
  | destroyContext (i : ℕ)
  | destroyWindow (i : ℕ)
  | closeDisplay (i : ℕ)
  | closeSharedDisplay
  deriving DecidableEq, Repr

/-- `clean_up` (lines 646-660): join every render thread, then for each
unit destroy its GLX context and then its window. -/
def clean_up (n : ℕ) : List SAct :=
  (List.range n).map SAct.join
    ++ (List.range n).flatMap (fun i => [SAct.destroyContext i, SAct.destroyWindow i])

/-- Shutdown actions of `main` after the event loop returns (lines
798-809): `clean_up`, then close each unit's display connection in
per-connection (`-p`) mode, else close the single shared connection. -/
def shutdownActions (n : ℕ) (multiDisplays : Bool) : List SAct :=
  clean_up n
    ++ (if multiDisplays then (List.range n).map SAct.closeDisplay
        else [SAct.closeSharedDisplay])

/-- Shutdown phase of an action: joins happen in phase 0, context/window
destruction in phase 1, connection closing in phase 2. -/
def shutdownPhase : SAct → ℕ
  | SAct.join _ => 0
  | SAct.destroyContext _ => 1
  | SAct.destroyWindow _ => 1
  | SAct.closeDisplay _ => 2
  | SAct.closeSharedDisplay => 2

/-- Actions that join a thread. -/
def isJoinAct : SAct → Bool
  | SAct.join _ => true
  | _ => false

/-- Actions that destroy unit `i`'s context or window. -/
def destroyActOf (i : ℕ) : SAct → Bool
  | SAct.destroyContext j => decide (j = i)
  | SAct.destroyWindow j => decide (j = i)
  | _ => false

/-- Actions that close a display connection. -/
def isCloseAct : SAct → Bool
  | SAct.closeDisplay _ => true
  | SAct.closeSharedDisplay => true
  | _ => false

/-! ## Per-unit record and the `ConfigureNotify` handler (C6) -/

/-- `struct winthread` (lines 66-79), restricted to the fields the event
dispatcher reads or writes.  The opaque handles `Dpy`, `Thread` and
`Context` are omitted; `Win` is the X window handle used as routing key. -/
structure WinThread : Type where
  Index : ℕ
  Win : ℕ
  AngleX : ℚ
  AngleY : ℚ
  WinWidth : ℤ
  WinHeight : ℤ
  NewSize : Bool
  Initialized : Bool
  MakeNewTexture : Bool
  MotionStartX : ℤ
  MotionStartY : ℤ
  deriving DecidableEq, Repr

/-- Effects of the `ConfigureNotify` handler besides field updates. -/
inductive REff : Type
  | broadcastRedraw
  | unlockReady (win : ℕ)
  deriving DecidableEq, Repr

/-- `resize` (lines 247-255): set the unit's dirty-size flag and new
dimensions; in step mode additionally broadcast the redraw signal. -/
def resize (animate : Bool) (wt : WinThread) (w h : ℤ) : WinThread × List REff :=
  ({ wt with NewSize := true, WinWidth := w, WinHeight := h },
   if animate then [] else [REff.broadcastRedraw])

/-- The `ConfigureNotify` branch of `event_loop` (lines 408-419): scan
the unit table for the first unit whose window is `w`, `resize` it,
unlock its gate, and stop (`break`). -/
def event_loop_configure (animate : Bool) (w : ℕ) (wd ht : ℤ) :
    List WinThread → List WinThread × List REff
  | [] => ([], [])
  | wt :: rest =>
      if wt.Win = w then
        ((resize animate wt wd ht).1 :: rest,
         (resize animate wt wd ht).2 ++ [REff.unlockReady wt.Win])
      else
        ((wt :: (event_loop_configure animate w wd ht rest).1),
         (event_loop_configure animate w wd ht rest).2)

/-! ## Thread-count argument (`-n`, lines 710-716) -/

/-- `MAX_WINTHREADS` (line 82). -/
def MAX_WINTHREADS : ℤ := 100

/-- C `isspace` for the default locale. -/
def isSpaceChar (c : Char) : Bool :=
  c = ' ' || c = '\t' || c = '\n' || c = '\x0d' || c = '\x0b' || c = '\x0c'

/-- Digit-consuming loop of C `atoi`: accumulate decimal digits, stop at
the first non-digit. -/
def atoiDigits : List Char → ℤ → ℤ
  | [], acc => acc
  | c :: cs, acc =>
      if c.isDigit then atoiDigits cs (acc * 10 + ((c.toNat : ℤ) - 48))
      else acc

/-- C `atoi` on a character list: skip leading whitespace, read an
optional sign, then decimal digits; anything else yields 0. -/
def atoiAux : List Char → ℤ
  | [] => 0
  | c :: cs =>
      if isSpaceChar c then atoiAux cs
      else if c = '-' then -(atoiDigits cs 0)
      else if c = '+' then atoiDigits cs 0
      else if c.isDigit then atoiDigits (c :: cs) 0
      else 0

/-- C `atoi` on a string (the argument of `-n`). -/
def atoi (s : String) : ℤ := atoiAux s.data

/-- The clamp applied to `numThreads` in `main` (lines 711-715). -/
def clampNumThreads (v : ℤ) : ℤ :=
  if v < 1 then 1
  else if v > MAX_WINTHREADS then MAX_WINTHREADS
  else v

/-! ## Command-line parsing (`main`, lines 686-723) -/

/-- The option globals of the program together with `main`'s locals
`displayName` and `numThreads` (lines 87-89, 686-687). -/
structure Config : Type where
  multiDisplays : Bool
  locking : Bool
  texture : Bool
  numThreads : ℤ
  displayName : Option String
  deriving DecidableEq, Repr

/-- Defaults before argument processing: 2 threads, single shared
connection, no explicit locking (so `XLockDisplay` native locking is
used), no texturing, `$DISPLAY`. -/
def defaultConfig : Config :=
  { multiDisplays := false, locking := false, texture := false,
    numThreads := 2, displayName := none }

/-- Result of argument processing: either proceed (recording whether the
usage message was printed on the way) or print usage and `exit(code)`. -/
inductive ArgsResult : Type
  | proceed (usagePrinted : Bool) (cfg : Config)
  | usageExit (code : ℤ)
  deriving DecidableEq, Repr

/-- The argument loop of `main` (lines 696-722).  A `-display` or `-n`
appearing as the last argument fails its `i + 1 < argc` guard, fails
every other `strcmp` test, and reaches the final `else`, which prints
usage and exits 1, as does any unrecognized flag. -/
def parseLoop : Config → List String → ArgsResult
  | cfg, [] => ArgsResult.proceed false cfg
  | cfg, a :: rest =>
      if a = "-display" then
        match rest with
        | d :: rs => parseLoop { cfg with displayName := some d } rs
        | [] => ArgsResult.usageExit 1
      else if a = "-p" then parseLoop { cfg with multiDisplays := true } rest
      else if a = "-l" then parseLoop { cfg with locking := true } rest
      else if a = "-t" then parseLoop { cfg with texture := true } rest
      else if a = "-n" then
        match rest with
        | v :: rs => parseLoop { cfg with numThreads := clampNumThreads (atoi v) } rs
        | [] => ArgsResult.usageExit 1
      else ArgsResult.usageExit 1

/-- Argument handling of `main` (lines 692-723): with no arguments print
usage and proceed with the defaults, otherwise run the argument loop. -/
def mainArgs (args : List String) : ArgsResult :=
  match args with
  | [] => ArgsResult.proceed true defaultConfig
  | _ => parseLoop defaultConfig args

/-! ## Texture regeneration (`MakeNewTexture`, lines 135-175) -/

/-- `TEX_SIZE` (line 138). -/
def TEX_SIZE : ℕ := 128

/-- `TexObj` (line 90): the shared texture object name. -/
def TexObj : ℕ := 12

/-- One RGBA texel.  Channel values are exact rationals; the C `float`
arithmetic of lines 146-152 is exact at these magnitudes. -/
structure TexPixel : Type where
  red : ℚ
  green : ℚ
  blue : ℚ
  alpha : ℚ

/-- The procedural image of lines 144-154, parametrized by the external
`cos` function (an opaque math-library leaf): pixel `(j, i)` is the gray
value `0.75 + 0.25 * cos (dt² + ds² + step)` with full alpha. -/
def texImagePixel (cosf : ℚ → ℚ) (step : ℚ) (j i : ℕ) : TexPixel :=
  let dt : ℚ := 5 * ((j : ℚ) - 1/2 * (TEX_SIZE : ℚ)) / (TEX_SIZE : ℚ)
  let ds : ℚ := 5 * ((i : ℚ) - 1/2 * (TEX_SIZE : ℚ)) / (TEX_SIZE : ℚ)
  let r : ℚ := dt * dt + ds * ds + step
  let g : ℚ := 3/4 + 1/4 * cosf r
  { red := g, green := g, blue := g, alpha := 1 }

/-- `glTexParameteri` arguments used on lines 169-170. -/
inductive TexParamName : Type
  | minFilter
  | magFilter

/-- Only `GL_LINEAR` is ever set. -/
inductive TexParamVal : Type
  | linear

/-- GL calls issued by `MakeNewTexture` (lines 158-174). -/
inductive TexEff : Type
  | bindTexture (obj : ℕ)
  | texParameteri (p : TexParamName) (v : TexParamVal)
  | texImage2D (w h : ℕ) (img : ℕ → ℕ → TexPixel)
  | texSubImage2D (x y w h : ℕ) (img : ℕ → ℕ → TexPixel)

/-- `MakeNewTexture` (lines 135-175): build the procedural image from
the static `step` scalar, increment `step` by 0.5, bind the shared
texture object, query its level-0 width, and either replace the full
128×128 sub-region (nonzero width; the `assert(width == TEX_SIZE)` on
line 162 aborts on any other nonzero width, modelled as `Except.error`)
or set linear min/mag filtering and allocate a fresh 128×128 image.
Returns the GL call list and the new value of `step`. -/
def MakeNewTexture (cosf : ℚ → ℚ) (width : ℤ) (step : ℚ) :
    Except Unit (List TexEff × ℚ) :=
  if width ≠ 0 then
    if width = (TEX_SIZE : ℤ) then
      Except.ok
        ([TexEff.bindTexture TexObj,
          TexEff.texSubImage2D 0 0 TEX_SIZE TEX_SIZE (texImagePixel cosf step)],
         step + 1/2)
    else Except.error ()
  else
    Except.ok
      ([TexEff.bindTexture TexObj,
        TexEff.texParameteri TexParamName.minFilter TexParamVal.linear,
        TexEff.texParameteri TexParamName.magFilter TexParamVal.linear,
        TexEff.texImage2D TEX_SIZE TEX_SIZE (texImagePixel cosf step)],
       step + 1/2)

/-- Value of the static `step` scalar after `k` successive
regenerations starting from `s` (each adds 0.5, line 156). -/
def stepIter : ℕ → ℚ → ℚ
  | 0, s => s
  | k + 1, s => stepIter k (s + 1/2)

/-! ## Setup failure handling and exit codes (`main`, `create_window`, `Error`) -/

/-- Environment describing which external setup calls succeed.
`mutexInitRet`/`mutexLockRet` are the return values of
`pthread_mutex_init`/`pthread_mutex_lock` on the unit's `Ready` gate
(lines 625-626). -/
structure SetupEnv : Type where
  displayOk : Bool
  visualOk : Bool
  windowOk : Bool
  contextOk : Bool
  mutexInitRet : ℤ
  mutexLockRet : ℤ
  deriving DecidableEq, Repr

/-- How the process terminates. -/
inductive ProcOutcome : Type
  | exited (code : ℤ)
  | assertFailed
  deriving DecidableEq, Repr

/-- The fatal-error checks of `create_window` (lines 577-627): `Error`
(lines 118-123) prints a message and calls `exit(1)`.  The gate mutex
calls are fatal only when they return -1 (lines 625-627).  Returns the
exit code if a check fires. -/
def create_window_check (env : SetupEnv) : Option ℤ :=
  if !env.visualOk then some 1
  else if !env.windowOk then some 1
  else if !env.contextOk then some 1
  else if env.mutexInitRet = -1 || env.mutexLockRet = -1 then some 1
  else none

/-- Termination behavior of `main` as a function of setup outcomes.  In
shared-connection mode a failed `XOpenDisplay` makes `main` return -1
(lines 749-753); in per-connection mode the per-unit `XOpenDisplay` is
checked only by `assert` (line 770).  Fatal `create_window` errors exit
with code 1; otherwise the event loop runs until the exit key, `clean_up`
completes, and `main` returns 0 (line 809). -/
def mainOutcome (multiDisplays : Bool) (env : SetupEnv) : ProcOutcome :=
  if !multiDisplays && !env.displayOk then ProcOutcome.exited (-1)
  else if multiDisplays && !env.displayOk then ProcOutcome.assertFailed
  else
    match create_window_check env with
    | some c => ProcOutcome.exited c
    | none => ProcOutcome.exited 0

/-- Sample unit with window handle 1 (dimensions as set by
`create_window`, lines 570, 621-624). -/
def sampleUnitA : WinThread :=
  { Index := 0, Win := 1, AngleX := 0, AngleY := 0, WinWidth := 700,
    WinHeight := 700, NewSize := false, Initialized := false,
    MakeNewTexture := false, MotionStartX := 0, MotionStartY := 0 }

/-- Sample unit with window handle 2. -/
def sampleUnitB : WinThread :=
  { Index := 1, Win := 2, AngleX := 0, AngleY := 0, WinWidth := 700,
    WinHeight := 700, NewSize := false, Initialized := false,
    MakeNewTexture := false, MotionStartX := 0, MotionStartY := 0 }

/-! ## Infrastructure lemmas about `run` and `stAt` -/

lemma run_nil {n : ℕ} (a : Bool) (s : Sys n) : run a s [] = [] := rfl

lemma run_cons {n : ℕ} (a : Bool) (s : Sys n) (c : Sched n) (cs : List (Sched n)) :
    run a s (c :: cs) = (sysStep a s c).2 :: run a (sysStep a s c).1 cs := rfl

lemma run_length {n : ℕ} (a : Bool) (s : Sys n) (cs : List (Sched n)) :
    (run a s cs).length = cs.length := by
  induction cs generalizing s with
  | nil => rfl
  | cons c cs ih => simp [run_cons, ih]

lemma stAt_zero {n : ℕ} (a : Bool) (s : Sys n) (cs : List (Sched n)) :
    stAt a s cs 0 = s := rfl

lemma stAt_cons_succ {n : ℕ} (a : Bool) (s : Sys n) (c : Sched n)
    (cs : List (Sched n)) (k : ℕ) :
    stAt a s (c :: cs) (k + 1) = stAt a (sysStep a s c).1 cs k := rfl

lemma run_get? {n : ℕ} (a : Bool) (s : Sys n) (cs : List (Sched n)) (k : ℕ) :
    (run a s cs).get? k = (cs.get? k).map (fun c => (sysStep a (stAt a s cs k) c).2) := by
  induction cs generalizing s k with
  | nil => simp [run_nil]
  | cons c cs ih =>
      cases k with
      | zero => simp [run_cons, stAt_zero]
      | succ k => simpa [run_cons, stAt_cons_succ] using ih (sysStep a s c).1 k

lemma stAt_succ_of_get? {n : ℕ} (a : Bool) (s : Sys n) (cs : List (Sched n))
    (k : ℕ) (c : Sched n) (h : cs.get? k = some c) :
    stAt a s cs (k + 1) = (sysStep a (stAt a s cs k) c).1 := by
  induction cs generalizing s k with
  | nil => simp at h
  | cons c' cs ih =>
      cases k with
      | zero =>
          simp only [List.get?] at h
          cases h
          simp [stAt_cons_succ, stAt_zero]
      | succ k =>
          simp only [List.get?] at h
          simpa [stAt_cons_succ] using ih (sysStep a s c').1 k h

lemma stAt_succ_of_get?_none {n : ℕ} (a : Bool) (s : Sys n) (cs : List (Sched n))
    (k : ℕ) (h : cs.get? k = none) :
    stAt a s cs (k + 1) = stAt a s cs k := by
  rw [List.get?_eq_none] at h
  unfold stAt
  rw [List.take_of_length_le h, List.take_of_length_le (Nat.le_succ_of_le h)]

/-! ## The exit flag is monotone and wakers-after-shutdown never draw -/

lemma exitFlag_applyDAct {n : ℕ} (s : Sys n) (d : DAct n) (h : s.exitFlag = true) :
    (applyDAct s d).exitFlag = true := by
  cases d <;> simp [applyDAct, h]

lemma exitFlag_mono_step {n : ℕ} (a : Bool) (s : Sys n) (c : Sched n)
    (h : s.exitFlag = true) : ((sysStep a s c).1).exitFlag = true := by
  cases c with
  | disp =>
      cases hq : s.queue with
      | nil => simpa [sysStep, dispStep, hq]
      | cons d rest =>
          simp only [sysStep, dispStep, hq]
          exact exitFlag_applyDAct _ d (by simpa using h)
  | th i =>
      cases hp : s.pcs i <;> by_cases hg : s.gates i <;>
        simp [sysStep, thStep, hp, hg, setPc, h]

lemma exitFlag_mono_stAt {n : ℕ} (a : Bool) (s : Sys n) (cs : List (Sched n))
    (q r : ℕ) (hqr : q ≤ r) (h : (stAt a s cs q).exitFlag = true) :
    (stAt a s cs r).exitFlag = true := by
  induction r, hqr using Nat.le_induction with
  | base => exact h
  | succ r hqr ih =>
      cases hc : cs.get? r with
      | none => rwa [stAt_succ_of_get?_none a s cs r hc]
      | some c =>
          rw [stAt_succ_of_get? a s cs r c hc]
          exact exitFlag_mono_step a _ c ih

lemma shutdownInv_step {n : ℕ} (a : Bool) (s : Sys n) (c : Sched n) (i : Fin n)
    (h : shutdownInv i s) : shutdownInv i ((sysStep a s c).1) := by
  obtain ⟨hf, hp⟩ := h
  cases c with
  | disp =>
      cases hq : s.queue with
      | nil =>
          exact ⟨by simpa [sysStep, dispStep, hq],
                 by simpa [sysStep, dispStep, hq] using hp⟩
      | cons d rest =>
          cases d with
          | setExit => constructor <;> simp [sysStep, dispStep, hq, applyDAct, hp]
          | unlockGate j =>
              constructor <;> simp [sysStep, dispStep, hq, applyDAct, hf, hp]
          | broadcast =>
              refine ⟨by simp [sysStep, dispStep, hq, applyDAct, hf], ?_⟩
              have hnc : s.pcs i ≠ PC.waitCond := by
                rcases hp with h | h <;> simp [h]
              simp [sysStep, dispStep, hq, applyDAct, hnc, hp]
  | th j =>
      by_cases hij : j = i
      · subst hij
        rcases hp with h | h <;>
          exact ⟨by simp [sysStep, thStep, h, setPc, hf],
                 by simp [sysStep, thStep, h, setPc, hf]⟩
      · have hji : ¬(i = j) := fun e => hij e.symm
        cases hpj : s.pcs j <;> by_cases hg : s.gates j <;>
          exact ⟨by simp [sysStep, thStep, hpj, hg, setPc, hf],
                 by simp [sysStep, thStep, hpj, hg, setPc, hji, hp]⟩

lemma shutdownInv_no_draw {n : ℕ} (a : Bool) (s : Sys n) (c : Sched n) (i : Fin n)
    (h : shutdownInv i s) :
    (sysStep a s c).2 ≠ Ob.draw i ∧ (sysStep a s c).2 ≠ Ob.present i := by
  obtain ⟨hf, hp⟩ := h
  cases c with
  | disp => cases hq : s.queue <;> simp [sysStep, dispStep, hq]
  | th j =>
      by_cases hij : j = i
      · subst hij
        rcases hp with h | h <;> simp [sysStep, thStep, h]
      · cases hpj : s.pcs j <;> by_cases hg : s.gates j <;>
          simp [sysStep, thStep, hpj, hg, hij]

lemma shutdownInv_stAt {n : ℕ} (a : Bool) (s : Sys n) (cs : List (Sched n))
    (i : Fin n) (q r : ℕ) (hqr : q ≤ r)
    (h : shutdownInv i (stAt a s cs q)) : shutdownInv i (stAt a s cs r) := by
  induction r, hqr using Nat.le_induction with
  | base => exact h
  | succ r hqr ih =>
      cases hc : cs.get? r with
      | none => rwa [stAt_succ_of_get?_none a s cs r hc]
      | some c =>
          rw [stAt_succ_of_get? a s cs r c hc]
          exact shutdownInv_step a _ c i ih

lemma ob_setExit_state {n : ℕ} (a : Bool) (s : Sys n) (c : Sched n)
    (h : (sysStep a s c).2 = Ob.dAct DAct.setExit) :
    ((sysStep a s c).1).exitFlag = true := by
  cases c with
  | disp =>
      cases hq : s.queue with
      | nil => simp [sysStep, dispStep, hq] at h
      | cons d rest =>
          simp only [sysStep, dispStep, hq] at h ⊢
          cases d <;> simp_all [applyDAct]
  | th i =>
      cases hp : s.pcs i <;> by_cases hg : s.gates i <;>
        simp [sysStep, thStep, hp, hg] at h

lemma ob_acquire_state {n : ℕ} (a : Bool) (s : Sys n) (c : Sched n) (i : Fin n)
    (h : (sysStep a s c).2 = Ob.acquire i) :
    ((sysStep a s c).1).pcs i = PC.gateHeld ∧
      ((sysStep a s c).1).exitFlag = s.exitFlag := by
  cases c with
  | disp =>
      cases hq : s.queue with
      | nil => simp [sysStep, dispStep, hq] at h
      | cons d rest => cases d <;> simp [sysStep, dispStep, hq, applyDAct] at h
  | th j =>
      cases hp : s.pcs j with
      | waitGate =>
          by_cases hg : s.gates j
          · have hji : j = i := by
              by_contra hne
              simp [sysStep, thStep, hp, hg, hne] at h
            subst hji
            simp [sysStep, thStep, hp, hg, setPc]
          · simp [sysStep, thStep, hp, hg] at h
      | _ => simp_all [sysStep, thStep, hp, setPc]

/-! ## Counting invariants: presents never outrun gate releases -/

lemma step_pres_body {n : ℕ} (a : Bool) (s : Sys n) (c : Sched n) (i : Fin n) :
    (if (sysStep a s c).2 = Ob.present i then 1 else 0) + bodyBit i (sysStep a s c).1
      ≤ bodyBit i s + (if (sysStep a s c).2 = Ob.acquire i then 1 else 0) := by
  cases c with
  | disp =>
      cases hq : s.queue with
      | nil => simp [sysStep, dispStep, hq]
      | cons d rest =>
          cases d with
          | setExit => simp [sysStep, dispStep, hq, applyDAct, bodyBit]
          | unlockGate j => simp [sysStep, dispStep, hq, applyDAct, bodyBit]
          | broadcast =>
              by_cases hw : s.pcs i = PC.waitCond <;>
                simp [sysStep, dispStep, hq, applyDAct, bodyBit, hw]
  | th j =>
      by_cases hij : j = i
      · subst hij
        cases hp : s.pcs j <;> by_cases hg : s.gates j <;>
          by_cases hf : s.exitFlag <;> cases a <;>
          simp [sysStep, thStep, hp, hg, hf, setPc, bodyBit]
      · have hji : ¬(i = j) := fun e => hij e.symm
        cases hp : s.pcs j <;> by_cases hg : s.gates j <;>
          by_cases hf : s.exitFlag <;> cases a <;>
          simp [sysStep, thStep, hp, hg, hf, setPc, bodyBit, hij, hji]

lemma step_acq_gate {n : ℕ} (a : Bool) (s : Sys n) (c : Sched n) (i : Fin n) :
    (if (sysStep a s c).2 = Ob.acquire i then 1 else 0) + gateBit i (sysStep a s c).1
      ≤ gateBit i s + (if (sysStep a s c).2 = Ob.dAct (DAct.unlockGate i) then 1 else 0) := by
  cases c with
  | disp =>
      cases hq : s.queue with
      | nil => simp [sysStep, dispStep, hq]
      | cons d rest =>
          cases d with
          | setExit => simp [sysStep, dispStep, hq, applyDAct, gateBit]
          | unlockGate j =>
              by_cases hij : j = i
              · by_cases hg : s.gates i <;>
                  simp [sysStep, dispStep, hq, applyDAct, gateBit, hij, hg]
              · have hji : ¬(i = j) := fun e => hij e.symm
                by_cases hg : s.gates i <;>
                  simp [sysStep, dispStep, hq, applyDAct, gateBit, hij, hji, hg]
          | broadcast => simp [sysStep, dispStep, hq, applyDAct, gateBit]
  | th j =>
      by_cases hij : j = i
      · subst hij
        cases hp : s.pcs j <;> by_cases hg : s.gates j <;>
          by_cases hf : s.exitFlag <;> cases a <;>
          simp [sysStep, thStep, hp, hg, hf, setPc, gateBit]
      · have hji : ¬(i = j) := fun e => hij e.symm
        cases hp : s.pcs j <;> by_cases hg : s.gates j <;>
          by_cases hgi : s.gates i <;> by_cases hf : s.exitFlag <;> cases a <;>
          simp [sysStep, thStep, hp, hg, hgi, hf, setPc, gateBit, hij, hji]

lemma step_rel_queue {n : ℕ} (a : Bool) (s : Sys n) (c : Sched n) (i : Fin n) :
    (if (sysStep a s c).2 = Ob.dAct (DAct.unlockGate i) then 1 else 0)
        + queueRel i (sysStep a s c).1
      = queueRel i s := by
  cases c with
  | disp =>
      cases hq : s.queue with
      | nil => simp [sysStep, dispStep, hq, queueRel]
      | cons d rest =>
          have hqa : ∀ d', (applyDAct { s with queue := rest } d').queue = rest := by
            intro d'; cases d' <;> rfl
          by_cases hdi : d = DAct.unlockGate i <;>
            simp [sysStep, dispStep, hq, queueRel, hqa, List.countP_cons, hdi,
              Nat.add_comm]
  | th j =>
      have hqs : ((thStep a s j).1).queue = s.queue := by
        cases hp : s.pcs j <;> by_cases hg : s.gates j <;>
          simp [thStep, hp, hg, setPc]
      have hob : ∀ x : DAct n, (thStep a s j).2 ≠ Ob.dAct x := by
        intro x
        cases hp : s.pcs j <;> by_cases hg : s.gates j <;>
          simp [thStep, hp, hg, setPc]
      simp [sysStep, queueRel, hqs, hob (DAct.unlockGate i)]

lemma pres_body_prefix {n : ℕ} (a : Bool) (i : Fin n) :
    ∀ (cs : List (Sched n)) (s : Sys n) (k : ℕ),
      presCnt i ((run a s cs).take k) + bodyBit i (stAt a s cs k)
        ≤ bodyBit i s + acqCnt i ((run a s cs).take k) := by
  intro cs
  induction cs with
  | nil => intro s k; simp [run_nil, stAt, presCnt, acqCnt]
  | cons c cs ih =>
      intro s k
      cases k with
      | zero => simp [stAt_zero, presCnt, acqCnt]
      | succ k =>
          have h1 := ih (sysStep a s c).1 k
          have h2 := step_pres_body a s c i
          rw [run_cons]
          simp only [List.take_succ_cons, stAt_cons_succ]
          simp only [presCnt, acqCnt, List.countP_cons, decide_eq_true_eq] at *
          omega

lemma acq_gate_prefix {n : ℕ} (a : Bool) (i : Fin n) :
    ∀ (cs : List (Sched n)) (s : Sys n) (k : ℕ),
      acqCnt i ((run a s cs).take k) + gateBit i (stAt a s cs k)
        ≤ gateBit i s + relCnt i ((run a s cs).take k) := by
  intro cs
  induction cs with
  | nil => intro s k; simp [run_nil, stAt, acqCnt, relCnt]
  | cons c cs ih =>
      intro s k
      cases k with
      | zero => simp [stAt_zero, acqCnt, relCnt]
      | succ k =>
          have h1 := ih (sysStep a s c).1 k
          have h2 := step_acq_gate a s c i
          rw [run_cons]
          simp only [List.take_succ_cons, stAt_cons_succ]
          simp only [acqCnt, relCnt, List.countP_cons, decide_eq_true_eq] at *
          omega

lemma countP_unlock_finRange {n : ℕ} (i : Fin n) :
    (List.finRange n).countP
        ((fun d => decide (d = DAct.unlockGate i)) ∘ DAct.unlockGate) = 1 := by
  have h : ((List.finRange n).countP
      ((fun d => decide (d = DAct.unlockGate i)) ∘ DAct.unlockGate))
        = (List.finRange n).countP (fun j => j == i) := by
    refine List.countP_congr (fun j _ => ?_)
    simp [Function.comp]
  rw [h, ← List.count_eq_countP,
    List.count_eq_one_of_mem (List.nodup_finRange n) (List.mem_finRange i)]

lemma countP_unlock_compileEvent {n : ℕ} (a t : Bool) (i : Fin n) (ev : XEv n) :
    (compileEvent a t ev).countP (fun d => decide (d = DAct.unlockGate i))
      = if releasingFor i ev then 1 else 0 := by
  cases ev <;> cases a <;> cases t <;>
    simp [compileEvent, releasingFor, List.countP_append, List.countP_cons,
      countP_unlock_finRange]

lemma queueRel_compileEvents {n : ℕ} (a t : Bool) (i : Fin n) (evs : List (XEv n)) :
    queueRel i (initSys n (compileEvents a t evs)) = evs.countP (releasingFor i) := by
  induction evs with
  | nil => rfl
  | cons e es ih =>
      simp only [queueRel, initSys, compileEvents, List.flatMap_cons,
        List.countP_append] at ih ⊢
      rw [countP_unlock_compileEvent a t i e, List.countP_cons, ih, Nat.add_comm]

lemma rel_queue_prefix {n : ℕ} (a : Bool) (i : Fin n) :
    ∀ (cs : List (Sched n)) (s : Sys n) (k : ℕ),
      relCnt i ((run a s cs).take k) + queueRel i (stAt a s cs k) = queueRel i s := by
  intro cs
  induction cs with
  | nil => intro s k; simp [run_nil, stAt, relCnt]
  | cons c cs ih =>
      intro s k
      cases k with
      | zero => simp [stAt_zero, relCnt]
      | succ k =>
          have h1 := ih (sysStep a s c).1 k
          have h2 := step_rel_queue a s c i
          rw [run_cons]
          simp only [List.take_succ_cons, stAt_cons_succ]
          simp only [relCnt, List.countP_cons, decide_eq_true_eq] at *
          omega

/-! ## List algebra for the shutdown sequence -/

lemma flatMap_pair_replicate {α : Type} (b : α) (n : ℕ) :
    ((List.range n).flatMap fun _ => [b, b]) = List.replicate (2 * n) b := by
  induction n with
  | zero => rfl
  | succ n ih =>
      rw [List.range_succ, List.flatMap_append, ih]
      have h2 : 2 * (n + 1) = (2 * n + 1) + 1 := by ring
      rw [h2, List.replicate_succ', List.replicate_succ']
      simp

lemma filter_destroy_destroys (n i : ℕ) :
    (((List.range n).flatMap fun j => [SAct.destroyContext j, SAct.destroyWindow j]).filter
        (destroyActOf i))
      = if i < n then [SAct.destroyContext i, SAct.destroyWindow i] else [] := by
  induction n with
  | zero => simp
  | succ n ih =>
      rw [List.range_succ, List.flatMap_append, List.filter_append, ih]
      rcases Nat.lt_trichotomy i n with h | h | h
      · have hne : ¬(n = i) := by omega
        simp [h, Nat.lt_succ_of_lt h, destroyActOf, hne]
      · subst h
        simp [destroyActOf]
      · have hne : ¬(n = i) := by omega
        have h1 : ¬i < n := by omega
        have h2 : ¬i < n + 1 := by omega
        simp [h1, h2, destroyActOf, hne]

lemma filter_join_joins (n : ℕ) :
    ((List.range n).map SAct.join).filter isJoinAct = (List.range n).map SAct.join := by
  refine List.filter_eq_self.mpr (fun a ha => ?_)
  obtain ⟨j, _, rfl⟩ := List.mem_map.mp ha
  rfl

lemma filter_join_destroys (n : ℕ) :
    (((List.range n).flatMap fun j => [SAct.destroyContext j, SAct.destroyWindow j]).filter
        isJoinAct) = [] := by
  refine List.filter_eq_nil_iff.mpr (fun a ha => ?_)
  obtain ⟨j, _, hj⟩ := List.mem_flatMap.mp ha
  simp only [List.mem_cons, List.mem_singleton] at hj
  rcases hj with rfl | rfl | hj <;> simp_all [isJoinAct]

lemma filter_destroy_joins (n i : ℕ) :
    ((List.range n).map SAct.join).filter (destroyActOf i) = [] := by
  refine List.filter_eq_nil_iff.mpr (fun a ha => ?_)
  obtain ⟨j, _, rfl⟩ := List.mem_map.mp ha
  simp [destroyActOf]

lemma filter_close_nil_of_mixed (n : ℕ) :
    (clean_up n).filter isCloseAct = [] := by
  refine List.filter_eq_nil_iff.mpr (fun a ha => ?_)
  unfold clean_up at ha
  rcases List.mem_append.mp ha with h | h
  · obtain ⟨j, _, rfl⟩ := List.mem_map.mp h
    simp [isCloseAct]
  · obtain ⟨j, _, hj⟩ := List.mem_flatMap.mp h
    simp only [List.mem_cons, List.mem_singleton] at hj
    rcases hj with rfl | rfl | hj <;> simp_all [isCloseAct]

lemma filter_join_closes (n : ℕ) (multi : Bool) :
    ((if multi then (List.range n).map SAct.closeDisplay
        else [SAct.closeSharedDisplay]).filter isJoinAct) = [] := by
  cases multi with
  | true =>
      show ((List.range n).map SAct.closeDisplay).filter isJoinAct = []
      refine List.filter_eq_nil_iff.mpr (fun a ha => ?_)
      obtain ⟨j, _, rfl⟩ := List.mem_map.mp ha
      simp [isJoinAct]
  | false =>
      show ([SAct.closeSharedDisplay].filter isJoinAct) = []
      rfl

lemma filter_destroy_closes (n i : ℕ) (multi : Bool) :
    ((if multi then (List.range n).map SAct.closeDisplay
        else [SAct.closeSharedDisplay]).filter (destroyActOf i)) = [] := by
  cases multi with
  | true =>
      show ((List.range n).map SAct.closeDisplay).filter (destroyActOf i) = []
      refine List.filter_eq_nil_iff.mpr (fun a ha => ?_)
      obtain ⟨j, _, rfl⟩ := List.mem_map.mp ha
      simp [destroyActOf]
  | false =>
      show ([SAct.closeSharedDisplay].filter (destroyActOf i)) = []
      rfl

lemma filter_close_closes (n : ℕ) (multi : Bool) :
    ((if multi then (List.range n).map SAct.closeDisplay
        else [SAct.closeSharedDisplay]).filter isCloseAct)
      = (if multi then (List.range n).map SAct.closeDisplay
         else [SAct.closeSharedDisplay]) := by
  cases multi with
  | true =>
      show ((List.range n).map SAct.closeDisplay).filter isCloseAct
        = (List.range n).map SAct.closeDisplay
      refine List.filter_eq_self.mpr (fun a ha => ?_)
      obtain ⟨j, _, rfl⟩ := List.mem_map.mp ha
      rfl
  | false =>
      show ([SAct.closeSharedDisplay].filter isCloseAct) = [SAct.closeSharedDisplay]
      rfl

/-! ## Claim theorems -/

/-- C1: when the escape key is pressed, `keypress` performs exactly this
sequence of effects: in step (non-animated) mode it first broadcasts the
global redraw condition variable under `CondMutex`; it then sets
`ExitFlag` to true; it then unlocks the `Ready` gate of each of the
`NumWinThreads` units in order; and its trace contains no drawing or
buffer-swap call. -/
theorem keypress_escape_effects (animate texture : Bool) (numWinThreads : ℕ) :
    keypress animate texture numWinThreads Key.escape
        = (if animate then []
           else [KEff.lockCondMutex, KEff.broadcastCondVar, KEff.unlockCondMutex])
          ++ [KEff.setExitFlag]
          ++ (List.range numWinThreads).map KEff.unlockReady
      ∧ KEff.drawCall ∉ keypress animate texture numWinThreads Key.escape
      ∧ KEff.swapBuffers ∉ keypress animate texture numWinThreads Key.escape := by
  refine ⟨rfl, ?_, ?_⟩ <;> cases animate <;> simp [keypress, signal_redraw]

/-- C2: in any interleaved execution, once the dispatcher has executed
`ExitFlag = GL_TRUE`, a render thread that subsequently wakes from its
gate observes the exit flag set (the state right after its acquisition
has `exitFlag = true`) and never performs a drawing call or a present
afterwards. -/
theorem exit_released_units_never_draw {n : ℕ} (a : Bool) (s : Sys n)
    (cs : List (Sched n)) (i : Fin n) (p q r : ℕ) (o : Ob n)
    (hpq : p < q) (hqr : q < r)
    (hp : (run a s cs).get? p = some (Ob.dAct DAct.setExit))
    (hq : (run a s cs).get? q = some (Ob.acquire i))
    (hr : (run a s cs).get? r = some o) :
    (stAt a s cs (q + 1)).exitFlag = true ∧ o ≠ Ob.draw i ∧ o ≠ Ob.present i := by
  rw [run_get?] at hp hq hr
  cases hcp : cs.get? p with
  | none => rw [hcp] at hp; simp at hp
  | some cp =>
      rw [hcp] at hp
      simp only [Option.map_some', Option.some.injEq] at hp
      have hflagp1 : (stAt a s cs (p + 1)).exitFlag = true := by
        rw [stAt_succ_of_get? a s cs p cp hcp]
        exact ob_setExit_state a _ cp hp
      have hflagq : (stAt a s cs q).exitFlag = true :=
        exitFlag_mono_stAt a s cs (p + 1) q hpq hflagp1
      cases hcq : cs.get? q with
      | none => rw [hcq] at hq; simp at hq
      | some cq =>
          rw [hcq] at hq
          simp only [Option.map_some', Option.some.injEq] at hq
          have hacq := ob_acquire_state a _ cq i hq
          have hinv1 : shutdownInv i (stAt a s cs (q + 1)) := by
            rw [stAt_succ_of_get? a s cs q cq hcq]
            exact ⟨by rw [hacq.2]; exact hflagq, Or.inl hacq.1⟩
          have hinvr : shutdownInv i (stAt a s cs r) :=
            shutdownInv_stAt a s cs i (q + 1) r hqr hinv1
          cases hcr : cs.get? r with
          | none => rw [hcr] at hr; simp at hr
          | some cr =>
              rw [hcr] at hr
              simp only [Option.map_some', Option.some.injEq] at hr
              subst hr
              exact ⟨hinv1.1, shutdownInv_no_draw a _ cr i hinvr⟩

/-- Witness for `exit_released_units_never_draw`: a concrete run in
which the dispatcher handles the escape key, the single unit wakes from
its gate afterwards (observing the flag) and only stutters to
completion. -/
theorem exit_released_units_never_draw_witness :
    (stAt true (initSys 1 (compileEvents true false [XEv.keyEscape])) escapeSched 4).exitFlag
        = true
      ∧ Ob.silent ≠ Ob.draw (0 : Fin 1) ∧ Ob.silent ≠ Ob.present (0 : Fin 1) :=
  exit_released_units_never_draw true
    (initSys 1 (compileEvents true false [XEv.keyEscape])) escapeSched
    (0 : Fin 1) 1 3 4 Ob.silent (by decide) (by decide) (by decide) (by decide) (by decide)

/-- C10: from the initial state (gates locked by `create_window`,
threads at the top of `draw_loop`), along every prefix of every
interleaved execution, each unit's presents never exceed its gate
acquisitions, and its gate acquisitions never exceed the gate releases
performed by the dispatcher — in animated mode just as in step mode.
Hence no frame is presented without a prior event-driven gate release. -/
theorem presents_need_gate_release {n : ℕ} (a : Bool) (q : List (DAct n))
    (cs : List (Sched n)) (i : Fin n) (k : ℕ) :
    presCnt i ((run a (initSys n q) cs).take k)
        ≤ acqCnt i ((run a (initSys n q) cs).take k)
      ∧ acqCnt i ((run a (initSys n q) cs).take k)
          ≤ relCnt i ((run a (initSys n q) cs).take k) := by
  have h1 := pres_body_prefix a i cs (initSys n q) k
  have h2 := acq_gate_prefix a i cs (initSys n q) k
  have hb : bodyBit i (initSys n q) = 0 := by simp [bodyBit, initSys]
  have hg : gateBit i (initSys n q) = 0 := by simp [gateBit, initSys]
  constructor <;> omega

/-- C3 counterexample: in step mode, with the event stream consisting of
a single `Expose` event (no key or pointer event at all), the unit
completes a full redraw cycle — refuting "no redraw cycle is produced in
step mode without a key event or pointer event".  Moreover, with events
`[Expose, step-key]`, at the moment the step-key broadcast is executed
the unit is blocked awaiting a redraw on the condition variable, yet no
present follows the broadcast — refuting "each press of the step key
causes every blocked unit to perform exactly one redraw cycle". -/
theorem step_key_claim_counterexample :
    presCnt (0 : Fin 1)
        (run false (initSys 1 (compileEvents false false [XEv.expose 0])) exposeOnlySched) = 1
      ∧ ([XEv.expose (0 : Fin 1)].countP isKeyOrPointerEv) = 0
      ∧ (stAt false (initSys 1 (compileEvents false false [XEv.expose 0, XEv.keyS]))
          exposeStepSched 7).pcs 0 = PC.waitCond
      ∧ (run false (initSys 1 (compileEvents false false [XEv.expose 0, XEv.keyS]))
          exposeStepSched).get? 7 = some (Ob.dAct DAct.broadcast)
      ∧ presCnt (0 : Fin 1)
          ((run false (initSys 1 (compileEvents false false [XEv.expose 0, XEv.keyS]))
            exposeStepSched).drop 8) = 0 := by
  decide

/-- C3 (amended): in step mode a press of the step key broadcasts the
Global Redraw Signal exactly once but releases no gate, and along any
interleaved execution from the initial state each unit performs at most
one redraw cycle (present) per gate-releasing event routed to it
(resize, pointer motion, button release, expose, or the exit key); in
particular step-key presses alone produce no redraw cycle, while a
gate-releasing event such as an expose produces one without any key or
pointer event. -/
theorem step_key_broadcast_only {n : ℕ} (texture : Bool) (evs : List (XEv n))
    (cs : List (Sched n)) (i : Fin n) :
    compileEvent false texture (XEv.keyS : XEv n) = [DAct.broadcast]
      ∧ presCnt i (run false (initSys n (compileEvents false texture evs)) cs)
          ≤ evs.countP (releasingFor i) := by
  refine ⟨rfl, ?_⟩
  have hlen := run_length false (initSys n (compileEvents false texture evs)) cs
  have h1 := pres_body_prefix false i cs (initSys n (compileEvents false texture evs)) cs.length
  have h2 := acq_gate_prefix false i cs (initSys n (compileEvents false texture evs)) cs.length
  have h3 := rel_queue_prefix false i cs (initSys n (compileEvents false texture evs)) cs.length
  have htake : (run false (initSys n (compileEvents false texture evs)) cs).take cs.length
      = run false (initSys n (compileEvents false texture evs)) cs := by
    rw [← hlen]
    exact List.take_length _
  rw [htake] at h1 h2 h3
  have hb : bodyBit i (initSys n (compileEvents false texture evs)) = 0 := by
    simp [bodyBit, initSys]
  have hg : gateBit i (initSys n (compileEvents false texture evs)) = 0 := by
    simp [gateBit, initSys]
  have hq := queueRel_compileEvents false texture i evs
  omega

/-- C4 counterexample: with the display connection unreachable (all
other setup calls fine), `main` returns -1 (lines 750-753) — not exit
code 1 as the claim states for every fatal setup error. -/
theorem display_failure_exit_counterexample :
    mainOutcome false
        { displayOk := false, visualOk := true, windowOk := true,
          contextOk := true, mutexInitRet := 0, mutexLockRet := 0 }
        = ProcOutcome.exited (-1)
      ∧ ProcOutcome.exited (-1) ≠ ProcOutcome.exited (1 : ℤ) := by
  decide

/-- C4 (amended): the process exits 0 on normal shutdown; it exits 1
exactly when the display is reachable but no compatible visual is found,
window creation fails, context creation fails, or a gate-mutex
init/lock call returns -1; an unreachable display makes `main` return
-1 in shared-connection mode (and trips an `assert` in per-connection
mode), not 1. -/
theorem exit_code_characterization (multi : Bool) (env : SetupEnv) :
    (mainOutcome multi env = ProcOutcome.exited 0
        ↔ (env.displayOk ∧ env.visualOk ∧ env.windowOk ∧ env.contextOk
            ∧ env.mutexInitRet ≠ -1 ∧ env.mutexLockRet ≠ -1))
      ∧ (mainOutcome multi env = ProcOutcome.exited 1
        ↔ (env.displayOk ∧ (¬env.visualOk ∨ ¬env.windowOk ∨ ¬env.contextOk
            ∨ env.mutexInitRet = -1 ∨ env.mutexLockRet = -1)))
      ∧ (mainOutcome multi env = ProcOutcome.exited (-1)
        ↔ (multi = false ∧ env.displayOk = false)) := by
  obtain ⟨d, vi, wi, co, mi, ml⟩ := env
  by_cases hmi : mi = -1 <;> by_cases hml : ml = -1 <;>
    cases multi <;> cases d <;> cases vi <;> cases wi <;> cases co <;>
    simp [mainOutcome, create_window_check, hmi, hml]

/-- C5: during shutdown every thread join precedes every resource
destruction, which precedes every connection close (the phase word of
the action sequence is the sorted word `0^n 1^(2n) 2^…`); the joins are
exactly one per unit; for each unit `i` its context is destroyed
immediately before its window; and the closes are one per unit in
per-connection mode, else the single shared close. -/
theorem shutdown_order (n : ℕ) (multi : Bool) :
    ((shutdownActions n multi).map shutdownPhase
        = List.replicate n 0 ++ List.replicate (2 * n) 1
            ++ List.replicate (if multi then n else 1) 2)
      ∧ (shutdownActions n multi).filter isJoinAct = (List.range n).map SAct.join
      ∧ (∀ i : ℕ, (shutdownActions n multi).filter (destroyActOf i)
          = if i < n then [SAct.destroyContext i, SAct.destroyWindow i] else [])
      ∧ (shutdownActions n multi).filter isCloseAct
          = (if multi then (List.range n).map SAct.closeDisplay
             else [SAct.closeSharedDisplay]) := by
  have hj : ((List.range n).map SAct.join).map shutdownPhase = List.replicate n 0 := by
    refine List.eq_replicate_iff.mpr ⟨by simp, fun b hb => ?_⟩
    simp only [List.mem_map] at hb
    obtain ⟨x, hx, rfl⟩ := hb
    obtain ⟨j, hj2, rfl⟩ := hx
    rfl
  have hd : (((List.range n).flatMap
        fun i => [SAct.destroyContext i, SAct.destroyWindow i]).map shutdownPhase)
      = List.replicate (2 * n) 1 := by
    rw [List.map_flatMap]
    simp only [List.map_cons, List.map_nil, shutdownPhase]
    exact flatMap_pair_replicate 1 n
  have hc : ((if multi then (List.range n).map SAct.closeDisplay
        else [SAct.closeSharedDisplay]).map shutdownPhase)
      = List.replicate (if multi then n else 1) 2 := by
    cases multi
    · rfl
    · show ((List.range n).map SAct.closeDisplay).map shutdownPhase = List.replicate n 2
      refine List.eq_replicate_iff.mpr ⟨by simp, fun b hb => ?_⟩
      simp only [List.mem_map] at hb
      obtain ⟨x, hx, rfl⟩ := hb
      obtain ⟨j, hj2, rfl⟩ := hx
      rfl
  refine ⟨?_, ?_, ?_, ?_⟩
  · unfold shutdownActions clean_up
    rw [List.map_append, List.map_append, hj, hd, hc]
  · unfold shutdownActions clean_up
    rw [List.filter_append, List.filter_append, filter_join_joins,
      filter_join_destroys, filter_join_closes]
    simp
  · intro i
    unfold shutdownActions clean_up
    rw [List.filter_append, List.filter_append, filter_destroy_joins,
      filter_destroy_destroys, filter_destroy_closes]
    simp
  · unfold shutdownActions
    rw [List.filter_append, filter_close_nil_of_mixed, filter_close_closes]
    rfl

/-- C6: a `ConfigureNotify` event for window `w` updates exactly the
unit bound to `w` — setting its width/height to the event's dimensions
and its dirty-size (`NewSize`) flag — leaves every other unit untouched
(in particular a dirty-size flag that was false stays false), and
releases only that unit's gate (broadcasting first in step mode); if no
unit owns `w`, nothing changes. -/
theorem configure_updates_only_target (animate : Bool) (units : List WinThread)
    (w : ℕ) (wd ht : ℤ) (hnd : (units.map WinThread.Win).Nodup) :
    event_loop_configure animate w wd ht units
      = (units.map (fun v =>
             if v.Win = w then { v with NewSize := true, WinWidth := wd, WinHeight := ht }
             else v),
         if units.any (fun v => decide (v.Win = w)) then
           (if animate then [] else [REff.broadcastRedraw]) ++ [REff.unlockReady w]
         else []) := by
  induction units with
  | nil => rfl
  | cons u us ih =>
      rw [List.map_cons, List.nodup_cons] at hnd
      obtain ⟨hnm, hnd'⟩ := hnd
      by_cases hw : u.Win = w
      · have hnone : ∀ v ∈ us, ¬(v.Win = w) := by
          intro v hv hvw
          exact hnm (List.mem_map.mpr ⟨v, hv, by rw [hvw, hw]⟩)
        have hmap : us.map (fun v =>
            if v.Win = w then { v with NewSize := true, WinWidth := wd, WinHeight := ht }
            else v) = us := by
          have h := List.map_congr_left
            (f := fun v => if v.Win = w then
                { v with NewSize := true, WinWidth := wd, WinHeight := ht } else v)
            (g := id) (l := us) (fun v hv => by simp [hnone v hv])
          simpa using h
        simp [event_loop_configure, resize, hw, hmap]
      · simp [event_loop_configure, hw, ih hnd']

/-- Witness for `configure_updates_only_target`: a two-unit table with
distinct window handles, resized at window 1. -/
theorem configure_updates_only_target_witness :
    (([sampleUnitA, sampleUnitB].map WinThread.Win).Nodup)
      ∧ event_loop_configure false 1 640 480 [sampleUnitA, sampleUnitB]
          = ([sampleUnitA, sampleUnitB].map (fun v =>
                 if v.Win = 1 then { v with NewSize := true, WinWidth := 640, WinHeight := 480 }
                 else v),
             if [sampleUnitA, sampleUnitB].any (fun v => decide (v.Win = 1)) then
               (if (false : Bool) then [] else [REff.broadcastRedraw]) ++ [REff.unlockReady 1]
             else []) :=
  ⟨by decide,
   configure_updates_only_target false [sampleUnitA, sampleUnitB] 1 640 480 (by decide)⟩

/-- C7: for every `-n` argument string, the effective thread count is
the C `atoi` value clamped into `[1, MAX_WINTHREADS] = [1, 100]`: values
below 1 (including 0, negatives, and non-numeric strings parsing to 0)
become 1, values above 100 become 100. -/
theorem numThreads_clamped (cfg : Config) (v : String) :
    parseLoop cfg ["-n", v]
        = ArgsResult.proceed false
            { cfg with numThreads := max 1 (min MAX_WINTHREADS (atoi v)) }
      ∧ (∀ x : ℤ, clampNumThreads x = max 1 (min MAX_WINTHREADS x))
      ∧ (∀ x : ℤ, 1 ≤ clampNumThreads x ∧ clampNumThreads x ≤ MAX_WINTHREADS)
      ∧ clampNumThreads (atoi "0") = 1
      ∧ clampNumThreads (atoi "-7") = 1
      ∧ (atoi "xyz" = 0 ∧ clampNumThreads (atoi "xyz") = 1)
      ∧ clampNumThreads (atoi "1000") = MAX_WINTHREADS := by
  have hclamp : ∀ x : ℤ, clampNumThreads x = max 1 (min MAX_WINTHREADS x) := by
    intro x
    unfold clampNumThreads MAX_WINTHREADS
    split_ifs <;> omega
  refine ⟨?_, hclamp, ?_, by decide, by decide, ⟨by decide, by decide⟩, by decide⟩
  · rw [← hclamp (atoi v)]
    rfl
  · intro x
    unfold clampNumThreads MAX_WINTHREADS
    split_ifs <;> omega

/-- C8: no command-line arguments prints the usage message and proceeds
with the defaults (2 threads, single shared connection, native
`XLockDisplay` locking — neither `-p` nor `-l` — and no texturing),
while any unrecognized flag makes the argument loop print usage and
`exit(1)`. -/
theorem args_default_and_unrecognized :
    mainArgs [] = ArgsResult.proceed true defaultConfig
      ∧ defaultConfig.numThreads = 2
      ∧ defaultConfig.multiDisplays = false
      ∧ defaultConfig.locking = false
      ∧ defaultConfig.texture = false
      ∧ (∀ (cfg : Config) (a : String) (rest : List String),
           a ≠ "-display" → a ≠ "-p" → a ≠ "-l" → a ≠ "-t" → a ≠ "-n" →
           parseLoop cfg (a :: rest) = ArgsResult.usageExit 1) := by
  refine ⟨rfl, rfl, rfl, rfl, rfl, ?_⟩
  intro cfg a rest h1 h2 h3 h4 h5
  unfold parseLoop
  simp [h1, h2, h3, h4, h5]

/-- Witness for `args_default_and_unrecognized`: the unrecognized flag
`-q` exits with usage. -/
theorem args_default_and_unrecognized_witness :
    mainArgs [] = ArgsResult.proceed true defaultConfig
      ∧ parseLoop defaultConfig ["-q"] = ArgsResult.usageExit 1 :=
  ⟨args_default_and_unrecognized.1,
   args_default_and_unrecognized.2.2.2.2.2 defaultConfig "-q" []
     (by decide) (by decide) (by decide) (by decide) (by decide)⟩

/-- C9: each texture regeneration builds the 128×128 RGBA image as a
function of the static `step` scalar and returns `step + 0.5`; the
scalar is strictly increased by 0.5 per call, hence non-decreasing (and
never decremented) across any number of calls; with zero queried width
the call sets linear min/mag filtering and allocates a fresh 128×128
image, with width 128 it issues a full-area 128×128 sub-region update,
and any other nonzero width is rejected by the `assert` (unreachable in
program runs, where the shared texture is only ever 128×128). -/
theorem makeNewTexture_behavior (cosf : ℚ → ℚ) (step : ℚ) (w : ℤ) :
    MakeNewTexture cosf w step
        = (if w = 0 then
             Except.ok ([TexEff.bindTexture TexObj,
               TexEff.texParameteri TexParamName.minFilter TexParamVal.linear,
               TexEff.texParameteri TexParamName.magFilter TexParamVal.linear,
               TexEff.texImage2D TEX_SIZE TEX_SIZE (texImagePixel cosf step)],
              step + 1/2)
           else if w = (TEX_SIZE : ℤ) then
             Except.ok ([TexEff.bindTexture TexObj,
               TexEff.texSubImage2D 0 0 TEX_SIZE TEX_SIZE (texImagePixel cosf step)],
              step + 1/2)
           else Except.error ())
      ∧ step < step + 1/2
      ∧ (∀ k : ℕ, stepIter k step = step + (k : ℚ) / 2)
      ∧ (∀ k : ℕ, step ≤ stepIter k step) := by
  have hiter : ∀ (k : ℕ) (s : ℚ), stepIter k s = s + (k : ℚ) / 2 := by
    intro k
    induction k with
    | zero => intro s; simp [stepIter]
    | succ k ih =>
        intro s
        have h0 : stepIter (k + 1) s = stepIter k (s + 1/2) := rfl
        rw [h0, ih]
        push_cast
        ring
  refine ⟨?_, by linarith, fun k => hiter k step, fun k => ?_⟩
  · by_cases hw0 : w = 0
    · simp [MakeNewTexture, hw0]
    · by_cases hw128 : w = (TEX_SIZE : ℤ) <;> simp [MakeNewTexture, hw0, hw128]
  · rw [hiter k step]
    have hk : (0 : ℚ) ≤ (k : ℚ) / 2 := by positivity
    linarith

end GLThreads
